import Mathlib

/-!
Verification of the feed-refresh engine in `src-tauri/src/models/async_feed_fetcher.rs`.

Shallow embedding conventions:
* Time (`std::time::Instant`, `Duration`, `chrono` datetimes) is modelled as `Nat`
  ticks in milliseconds; `Duration::from_secs 5` becomes `5000`.
* Asynchronous operations that sleep are modelled as pure functions returning,
  next to their result, the (virtual) time at which they return.
* Database access and RFC3339 parsing are external collaborators; they are
  modelled by explicit parameters (a row list for the store, an oracle
  `String → Option Nat` for the datetime parser, a success oracle for inserts).
* Rust structs become Lean structures keeping the source field names;
  `Result<T, E>` becomes `Except E T`; `Option<T>` becomes `Option T`.
-/

/-- `FetchPriority` (async_feed_fetcher.rs, lines 88-94): `Low = 0`, `Normal = 1`,
`High = 2`, `Critical = 3`. -/
inductive FetchPriority where
  | low
  | normal
  | high
  | critical
deriving DecidableEq, Repr

/-- The numeric discriminant the source assigns to each priority; the derived
Rust `Ord` on the enum coincides with comparison of these discriminants. -/
def FetchPriority.toNat : FetchPriority → Nat
  | .low => 0
  | .normal => 1
  | .high => 2
  | .critical => 3

/-- `FeedFetchTask` (lines 68-73): url, priority, retry_count. -/
structure FeedFetchTask where
  url : String
  priority : FetchPriority
  retry_count : Nat
deriving DecidableEq, Repr

/-- `impl Ord for FeedFetchTask` (lines 81-86): tasks are compared by
priority alone (`self.priority.cmp(&other.priority)`). -/
def FeedFetchTask.cmp (a b : FeedFetchTask) : Ordering :=
  compare a.priority.toNat b.priority.toNat

/-- `FeedFetchError` (lines 107-114). -/
inductive FeedFetchError where
  | networkError (msg : String)
  | parseError (msg : String)
  | timeout
  | rateLimited
  | tooManyRetries
deriving DecidableEq, Repr

/-- `ParsedEntry` (feed_parser.rs, lines 14-20). -/
structure ParsedEntry where
  title : Option String
  description : Option String
  link : Option String
  published : Option String
  content : Option String
deriving DecidableEq, Repr

/-- `ParsedFeed` (feed_parser.rs, lines 6-11). -/
structure ParsedFeed where
  title : String
  description : Option String
  url : Option String
  entries : List ParsedEntry
deriving DecidableEq, Repr

/-- `FetcherConfig` (lines 15-22); all durations in milliseconds. -/
structure FetcherConfig where
  max_concurrent_requests : Nat
  rate_limit_delay : Nat
  request_timeout : Nat
  max_retries : Nat
  base_retry_delay : Nat
  max_retry_delay : Nat
deriving DecidableEq, Repr

/-- `FetcherConfig::default` (lines 24-35). -/
def FetcherConfig.default : FetcherConfig :=
  { max_concurrent_requests := 10
    rate_limit_delay := 100
    request_timeout := 30000
    max_retries := 3
    base_retry_delay := 500
    max_retry_delay := 60000 }

/-- `RefreshError` (responses.rs, lines 98-105); the `timestamp` string field is
modelled as the Nat wall-clock tick at which it was built. -/
structure RefreshError where
  feed_url : String
  feed_title : Option String
  error_message : String
  error_type : String
  retry_count : Nat
  timestamp : Nat
deriving DecidableEq, Repr

/-- `FeedRefreshStatus` (responses.rs, lines 119-127). -/
structure FeedRefreshStatus where
  feed_id : Int
  feed_url : String
  feed_title : Option String
  status : String
  entries_added : Nat
  last_fetched_at : Nat
  error : Option RefreshError
deriving DecidableEq, Repr

/-- `RefreshSummary` (responses.rs, lines 108-116); `timestamp` modelled as the
Nat tick of emission. -/
structure RefreshSummary where
  timestamp : Nat
  total_processed : Nat
  successful_count : Nat
  failed_count : Nat
  duration_seconds : Nat
  feeds_updated : List FeedRefreshStatus
  errors : List RefreshError
deriving DecidableEq, Repr

/-- `RefreshProgressState` (lines 38-49); `start_time : Option Instant` becomes
`Option Nat`. -/
structure RefreshProgressState where
  is_active : Bool
  total_feeds : Nat
  completed_feeds : Nat
  failed_feeds : Nat
  current_feed_url : Option String
  start_time : Option Nat
  errors : List RefreshError
  feed_statuses : List FeedRefreshStatus
  last_summary : Option RefreshSummary
deriving DecidableEq, Repr

/-- `RefreshProgressState::default` (lines 51-65). -/
def RefreshProgressState.default : RefreshProgressState :=
  { is_active := false
    total_feeds := 0
    completed_feeds := 0
    failed_feeds := 0
    current_feed_url := none
    start_time := none
    errors := []
    feed_statuses := []
    last_summary := none }

/-- The two summary-holding fields of `AsyncFeedFetcher` (lines 196-197):
the shared progress struct and the persistent `last_refresh_summary` slot. -/
structure FetcherRefreshState where
  refresh_progress : RefreshProgressState
  last_refresh_summary : Option RefreshSummary
deriving DecidableEq, Repr

/-- The coordinator state a fresh `AsyncFeedFetcher` starts from
(lines 213-214): default progress, empty persistent slot. -/
def FetcherRefreshState.initial : FetcherRefreshState :=
  { refresh_progress := RefreshProgressState.default
    last_refresh_summary := none }

/-- `AsyncFeedFetcher::start_refresh_operation` (lines 291-304): overwrite the
whole progress struct; the persistent summary slot is untouched. -/
def start_refresh_operation (st : FetcherRefreshState) (total_feeds : Nat)
    (now : Nat) : FetcherRefreshState :=
  { st with
    refresh_progress :=
      { is_active := true
        total_feeds := total_feeds
        completed_feeds := 0
        failed_feeds := 0
        current_feed_url := none
        start_time := some now
        errors := []
        feed_statuses := []
        last_summary := none } }

/-- The summary built inside the completion operations (lines 328-338 and
635-645) from the just-updated progress `p` at wall-clock tick `now`, when
`p.start_time = some t0`.  `duration_seconds = (now - t0) / 1000` models
`start_time.elapsed().as_secs()`. -/
def buildRefreshSummary (p : RefreshProgressState) (t0 now : Nat) :
    RefreshSummary :=
  { timestamp := now
    total_processed := p.total_feeds
    successful_count := p.completed_feeds - p.failed_feeds
    failed_count := p.failed_feeds
    duration_seconds := (now - t0) / 1000
    feeds_updated := p.feed_statuses
    errors := p.errors }

/-- The progress mutation shared verbatim by `complete_feed_refresh`
(lines 311-322) and `complete_feed_refresh_internal` (lines 619-627):
increment `completed_feeds`, on error increment `failed_feeds` and append the
error, append the status. -/
def bumpProgress (p : RefreshProgressState) (feed_status : FeedRefreshStatus)
    (error : Option RefreshError) : RefreshProgressState :=
  let p := { p with completed_feeds := p.completed_feeds + 1 }
  let p :=
    match error with
    | some err =>
        { p with failed_feeds := p.failed_feeds + 1, errors := p.errors ++ [err] }
    | none => p
  { p with feed_statuses := p.feed_statuses ++ [feed_status] }

/-- `AsyncFeedFetcher::complete_feed_refresh_internal` (lines 614-653): bump the
progress; if `completed_feeds >= total_feeds`, deactivate and, when a start
time exists, store the summary in `progress.last_summary`. -/
def complete_feed_refresh_internal (p : RefreshProgressState)
    (feed_status : FeedRefreshStatus) (error : Option RefreshError)
    (now : Nat) : RefreshProgressState :=
  let p := bumpProgress p feed_status error
  if p.total_feeds ≤ p.completed_feeds then
    let p := { p with is_active := false, current_feed_url := none }
    match p.start_time with
    | some t0 => { p with last_summary := some (buildRefreshSummary p t0 now) }
    | none => p
  else
    p

/-- Whether one call to `complete_feed_refresh_internal` from progress state `p`
runs the summary-emission branch (lines 630 and 635): the bumped counter
reaches `total_feeds` and a start time exists. -/
def completionEmits (p : RefreshProgressState) : Bool :=
  decide (p.total_feeds ≤ p.completed_feeds + 1) && p.start_time.isSome

/-- `AsyncFeedFetcher::complete_feed_refresh` (lines 311-345): identical
progress mutation, but the summary is written to the persistent
`last_refresh_summary` slot instead of `progress.last_summary`. -/
def complete_feed_refresh (st : FetcherRefreshState)
    (feed_status : FeedRefreshStatus) (error : Option RefreshError)
    (now : Nat) : FetcherRefreshState :=
  let p := bumpProgress st.refresh_progress feed_status error
  if p.total_feeds ≤ p.completed_feeds then
    let p := { p with is_active := false, current_feed_url := none }
    match p.start_time with
    | some t0 =>
        { refresh_progress := p
          last_refresh_summary := some (buildRefreshSummary p t0 now) }
    | none => { st with refresh_progress := p }
  else
    { st with refresh_progress := p }

/-- `AsyncFeedFetcher::get_last_refresh_summary` (lines 381-396): a summary
pending in the progress state is copied to the persistent slot and returned;
otherwise the persistent slot is returned.  Returns (result, new state). -/
def get_last_refresh_summary (st : FetcherRefreshState) :
    Option RefreshSummary × FetcherRefreshState :=
  match st.refresh_progress.last_summary with
  | some s => (some s, { st with last_refresh_summary := some s })
  | none => (st.last_refresh_summary, st)

/-- `AsyncFeedFetcher::abort_refresh` (lines 398-402). -/
def abort_refresh (st : FetcherRefreshState) : FetcherRefreshState :=
  { st with
    refresh_progress :=
      { st.refresh_progress with is_active := false, current_feed_url := none } }

/-- One coordinator operation, as invoked on the shared state. -/
inductive CoordOp where
  | start (total_feeds : Nat) (now : Nat)
  | complete (feed_status : FeedRefreshStatus) (error : Option RefreshError)
      (now : Nat)
  | completeInternal (feed_status : FeedRefreshStatus)
      (error : Option RefreshError) (now : Nat)
  | abort
deriving Repr

/-- Apply one coordinator operation to the shared state. -/
def applyCoordOp (st : FetcherRefreshState) : CoordOp → FetcherRefreshState
  | .start n now => start_refresh_operation st n now
  | .complete fs err now => complete_feed_refresh st fs err now
  | .completeInternal fs err now =>
      { st with
        refresh_progress :=
          complete_feed_refresh_internal st.refresh_progress fs err now }
  | .abort => abort_refresh st

/-- Run a sequence of coordinator operations from a state. -/
def runCoordOps (st : FetcherRefreshState) : List CoordOp → FetcherRefreshState
  | [] => st
  | op :: rest => runCoordOps (applyCoordOp st op) rest

/-- The progress-state predicate of the spec invariants section. -/
def progressInv (p : RefreshProgressState) : Prop :=
  p.completed_feeds ≤ p.total_feeds ∧
  p.failed_feeds ≤ p.completed_feeds ∧
  (p.is_active = true → p.completed_feeds < p.total_feeds)

instance (p : RefreshProgressState) : Decidable (progressInv p) := by
  unfold progressInv; infer_instance

/- ### Rate limiter -/

/-- `RateLimiter` (lines 143-147): the per-host map of last request `Instant`s
(an association list keyed by domain) plus the minimum delay, in ms. -/
structure RateLimiter where
  last_request_times : List (String × Nat)
  min_delay : Nat
deriving DecidableEq, Repr

/-- `HashMap::get` on the last-request map. -/
def RateLimiter.lookup (rl : RateLimiter) (domain : String) : Option Nat :=
  (rl.last_request_times.find? (fun kv => kv.1 = domain)).map (·.2)

/-- `HashMap::insert` on the last-request map (lines 180-181). -/
def RateLimiter.record (rl : RateLimiter) (domain : String) (t : Nat) :
    RateLimiter :=
  { rl with
    last_request_times :=
      (domain, t) :: rl.last_request_times.filter (fun kv => ¬ kv.1 = domain) }

/-- The outcome of one `wait_if_needed` call: the returned `Result`, the
limiter state afterwards, and the (virtual) time at which the call returns —
equal to the call time unless the call slept. -/
structure WaitOutcome where
  result : Except FeedFetchError Unit
  state : RateLimiter
  returnTime : Nat
deriving Repr

/-- `RateLimiter::wait_if_needed` (lines 157-183), called for `domain` at time
`now`.  No prior timestamp, or `elapsed ≥ min_delay`: record now, return Ok at
`now`.  Otherwise `wait = min_delay - elapsed`; if `wait > 5000` ms return
`RateLimited` with the map untouched; else sleep `wait`, record the wake-up
time and return Ok then. -/
def wait_if_needed (rl : RateLimiter) (domain : String) (now : Nat) :
    WaitOutcome :=
  match rl.lookup domain with
  | none => ⟨.ok (), rl.record domain now, now⟩
  | some last_time =>
      let elapsed := now - last_time
      if elapsed < rl.min_delay then
        let wait_time := rl.min_delay - elapsed
        if 5000 < wait_time then
          ⟨.error .rateLimited, rl, now⟩
        else
          ⟨.ok (), rl.record domain (now + wait_time), now + wait_time⟩
      else
        ⟨.ok (), rl.record domain now, now⟩

/- ### Fetch with retry -/

/-- `AsyncFeedFetcher::calculate_exponential_backoff` (lines 820-823):
`min(base_retry_delay * 2^attempt, max_retry_delay)`, in ms.  (The source
multiplies a `Duration` by `2_u32.pow(attempt)`, which panics on overflow
rather than wrapping; the claims only exercise `attempt ≤ max_retries`.) -/
def calculate_exponential_backoff (attempt : Nat) (config : FetcherConfig) :
    Nat :=
  min (config.base_retry_delay * 2 ^ attempt) config.max_retry_delay

/-- The environment's behaviour on one attempt of `fetch_with_retry`: what
`rate_limiter.wait_if_needed` returns on this attempt (`rateLimited = true`
models `Err(RateLimited)`), and, if it returns Ok, what `fetch_single`
returns. -/
structure AttemptBehavior where
  rateLimited : Bool
  fetch : Except FeedFetchError ParsedFeed
deriving Repr

/-- Observable outcome of one `fetch_with_retry` invocation: the returned
`Result`, the list of backoff sleeps performed (in ms, in order), and the
number of attempts made (iterations that called `wait_if_needed`). -/
structure RetryRun where
  result : Except FeedFetchError ParsedFeed
  sleeps : List Nat
  attempts : Nat
deriving Repr

/-- The `for attempt in 0..=config.max_retries` loop of
`AsyncFeedFetcher::fetch_with_retry` (lines 713-753), with the environment
given by `beh` (attempt-indexed).  `attempt` is the current index, `fuel` the
number of loop iterations left, `last_error` the recorded error.  On a
rate-limited attempt the `?` operator returns the error at once; on fetch
success the feed is returned; on failure the error is recorded and, when
`attempt < max_retries`, a backoff sleep is performed before continuing.
When the range is exhausted the result is
`Err(last_error.unwrap_or(TooManyRetries))` (line 752). -/
def fetchRetryLoop (beh : Nat → AttemptBehavior) (config : FetcherConfig) :
    (attempt fuel : Nat) → (last_error : Option FeedFetchError) → RetryRun
  | _, 0, last_error => ⟨.error (last_error.getD .tooManyRetries), [], 0⟩
  | attempt, fuel + 1, _last_error =>
      let b := beh attempt
      if b.rateLimited then
        ⟨.error .rateLimited, [], 1⟩
      else
        match b.fetch with
        | .ok feed => ⟨.ok feed, [], 1⟩
        | .error e =>
            let sleeps :=
              if attempt < config.max_retries then
                [calculate_exponential_backoff attempt config]
              else
                []
            let rest := fetchRetryLoop beh config (attempt + 1) fuel (some e)
            ⟨rest.result, sleeps ++ rest.sleeps, rest.attempts + 1⟩

/-- `AsyncFeedFetcher::fetch_with_retry` (lines 713-753): run the loop from
attempt 0 with `max_retries + 1` iterations and no recorded error. -/
def fetch_with_retry (beh : Nat → AttemptBehavior) (config : FetcherConfig) :
    RetryRun :=
  fetchRetryLoop beh config 0 (config.max_retries + 1) none

/-- The `FeedFetchResult` fields the worker constructs (lines 474-479), as far
as the claims observe them: the task url, the retry result, and
`retry_count: priority_task.retry_count` — taken from the task the worker
holds, not from the clone that `fetch_with_retry` mutated. -/
structure FeedFetchResult where
  url : String
  result : Except FeedFetchError ParsedFeed
  retry_count : Nat
deriving Repr

/-- The body of the task spawned by the worker loop (lines 464-479): call
`fetch_with_retry` on a clone of `priority_task`, then build the
`FeedFetchResult` from `priority_task` itself, whose `retry_count` was never
updated. -/
def workerFetchResult (priority_task : FeedFetchTask)
    (beh : Nat → AttemptBehavior) (config : FetcherConfig) : FeedFetchResult :=
  { url := priority_task.url
    result := (fetch_with_retry beh config).result
    retry_count := priority_task.retry_count }

/-- `AsyncFeedFetcher::queue_feed` (lines 268-277): build a task with
`retry_count = 0` and send it; when the channel is closed (the worker loop has
dropped the receiver) the send fails with the fixed error string.  `closed`
models whether the receiver has been dropped. -/
def queue_feed (closed : Bool) (url : String) (priority : FetchPriority) :
    Except String FeedFetchTask :=
  let task : FeedFetchTask := { url := url, priority := priority, retry_count := 0 }
  if closed then .error "Failed to queue feed task" else .ok task

/- ### Priority heap and dispatcher -/

/-- `BinaryHeap::pop` on the dispatcher's task heap, specialised to the `Ord`
of `FeedFetchTask` (lines 81-86): returns a task of maximal priority together
with the remaining contents.  (Rust's heap does not specify which maximal
element is popped among ties; this pops the first of the maximal ones.) -/
def heapPopMax : List FeedFetchTask → Option (FeedFetchTask × List FeedFetchTask)
  | [] => none
  | t :: ts =>
      match heapPopMax ts with
      | none => some (t, ts)
      | some (m, rest) =>
          if t.priority.toNat < m.priority.toNat then
            some (m, t :: rest)
          else
            some (t, ts)

/-- One `recv` returning `Some(task)` in the worker loop, together with the
`is_running` value read right after it (line 443) and the extra tasks the
non-blocking `try_recv` drain yields (lines 451-453). -/
structure RecvEvent where
  task : FeedFetchTask
  running : Bool
  drained : List FeedFetchTask
deriving Repr

/-- Dispatcher-loop state: the heap contents and whether the loop has
executed `break` (line 444), after which the function returns and the channel
receiver is dropped. -/
structure DispatcherState where
  heap : List FeedFetchTask
  exited : Bool
deriving Repr

/-- One iteration of the dispatcher loop (`worker_loop`, lines 442-495) upon a
received task: if the loop has already exited nothing happens; if
`is_running` is false the task is dropped and the loop breaks; otherwise the
task and the drained tasks are pushed and the highest-priority task is popped
and dispatched.  Returns the new state and the dispatched task, if any. -/
def dispatchStep (st : DispatcherState) (ev : RecvEvent) :
    DispatcherState × Option FeedFetchTask :=
  if st.exited then
    (st, none)
  else if ev.running = false then
    ({ st with exited := true }, none)
  else
    let h := st.heap ++ ev.task :: ev.drained
    match heapPopMax h with
    | some (m, rest) => (⟨rest, false⟩, some m)
    | none => (⟨h, false⟩, none)

/-- Run the dispatcher over a sequence of receive events, collecting the
dispatched tasks in order. -/
def runDispatcher (st : DispatcherState) :
    List RecvEvent → DispatcherState × List FeedFetchTask
  | [] => (st, [])
  | ev :: rest =>
      let (st', d) := dispatchStep st ev
      let (stFin, ds) := runDispatcher st' rest
      (stFin, d.toList ++ ds)

/-- The dispatcher's start state: empty heap, loop alive (line 439). -/
def DispatcherState.initial : DispatcherState := ⟨[], false⟩

/- ### Persistence: save_parsed_feed_to_database -/

/-- The `feed_entry` row fields that `save_parsed_feed_to_database` sets when
inserting (lines 681-699).  `published_at` holds the value of the datetime
parser (modelled abstractly as `Nat`), `created_at`/`updated_at` the
insertion tick. -/
structure FeedEntryRow where
  feed_id : Int
  title : String
  description : Option String
  link : String
  content : Option String
  published_at : Option Nat
  created_at : Nat
  updated_at : Nat
  is_read : Bool
  is_starred : Bool
deriving DecidableEq, Repr

/-- The duplicate-detection SELECT (lines 672-677): does a row with this
`(feed_id, link)` pair exist in the store? -/
def entryExists (db : List FeedEntryRow) (feedId : Int) (link : String) :
    Bool :=
  db.any (fun r => r.feed_id == feedId && r.link == link)

/-- The entry loop of `AsyncFeedFetcher::save_parsed_feed_to_database`
(lines 656-711).  `rfc3339` models `chrono::DateTime::parse_from_rfc3339`
(`none` = parse failure); `now` the wall clock; `insOk k` whether the `k`-th
INSERT of this call succeeds (an external-store oracle); `idx`/`acc` the
inserts attempted so far and `entries_added`.  Entries are processed in
document order: an entry with a missing or empty link is skipped; an entry
whose `(feed_id, link)` already exists is skipped; otherwise a row is
inserted (title defaulted to "Untitled", flags false, `published_at` the
parsed publish date), and an insert failure aborts the whole save with an
error.  On success the pair (entries_added, final store) is returned. -/
def saveEntriesLoop (rfc3339 : String → Option Nat) (now : Nat)
    (insOk : Nat → Bool) (feedId : Int) :
    List ParsedEntry → List FeedEntryRow → Nat → Nat →
    Except String (Nat × List FeedEntryRow)
  | [], db, _, acc => .ok (acc, db)
  | entry :: rest, db, idx, acc =>
      match entry.link with
      | none => saveEntriesLoop rfc3339 now insOk feedId rest db idx acc
      | some entry_link =>
          if entry_link = "" then
            saveEntriesLoop rfc3339 now insOk feedId rest db idx acc
          else if entryExists db feedId entry_link then
            saveEntriesLoop rfc3339 now insOk feedId rest db idx acc
          else if insOk idx then
            let new_entry : FeedEntryRow :=
              { feed_id := feedId
                title := entry.title.getD "Untitled"
                description := entry.description
                link := entry_link
                content := entry.content
                published_at := entry.published.bind rfc3339
                created_at := now
                updated_at := now
                is_read := false
                is_starred := false }
            saveEntriesLoop rfc3339 now insOk feedId rest (db ++ [new_entry])
              (idx + 1) (acc + 1)
          else
            .error "Failed to insert feed entry"

/-- `AsyncFeedFetcher::save_parsed_feed_to_database` (lines 656-711): run the
entry loop over `parsed_feed.entries` with zero inserts performed. -/
def save_parsed_feed_to_database (rfc3339 : String → Option Nat) (now : Nat)
    (insOk : Nat → Bool) (feedId : Int) (db : List FeedEntryRow)
    (parsed_feed : ParsedFeed) : Except String (Nat × List FeedEntryRow) :=
  saveEntriesLoop rfc3339 now insOk feedId parsed_feed.entries db 0 0

/-- The link an entry contributes on the non-skip path: `some l` exactly when
the entry has a non-empty link. -/
def entryGoodLink (entry : ParsedEntry) : Option String :=
  match entry.link with
  | none => none
  | some l => if l = "" then none else some l

/- ### Runs of the completion operation -/

/-- One worker-side completion delivery: the status, the optional error, and
the wall-clock tick of the call. -/
abbrev CompletionEvent := FeedRefreshStatus × Option RefreshError × Nat

/-- Apply a sequence of `complete_feed_refresh_internal` calls to a progress
state. -/
def runCompletions (p : RefreshProgressState) :
    List CompletionEvent → RefreshProgressState
  | [] => p
  | (fs, err, now) :: rest =>
      runCompletions (complete_feed_refresh_internal p fs err now) rest

/-- How many of the completion calls in the sequence run the summary-emission
branch. -/
def countEmits (p : RefreshProgressState) : List CompletionEvent → Nat
  | [] => 0
  | (fs, err, now) :: rest =>
      (if completionEmits p then 1 else 0) +
        countEmits (complete_feed_refresh_internal p fs err now) rest

/-- Validity of an operation sequence for the amended progress invariant:
every `start_refresh_operation` is for at least one feed, and every
completion call is made while a refresh is active (in-flight results are not
delivered after the refresh has finished or been aborted). -/
def validOpsFrom : FetcherRefreshState → List CoordOp → Bool
  | _, [] => true
  | st, op :: rest =>
      (match op with
       | CoordOp.start n _ => decide (1 ≤ n)
       | CoordOp.complete _ _ _ => st.refresh_progress.is_active
       | CoordOp.completeInternal _ _ _ => st.refresh_progress.is_active
       | CoordOp.abort => true) && validOpsFrom (applyCoordOp st op) rest

/- ### Concrete fixtures for witnesses and counterexamples -/

/-- A successful per-feed status, as built on the success path
(lines 543-551). -/
def fsSuccess : FeedRefreshStatus :=
  { feed_id := 1
    feed_url := "https://example.com/feed.xml"
    feed_title := some "Test Feed"
    status := "success"
    entries_added := 1
    last_fetched_at := 5
    error := none }

/-- An attempt oracle for the retry-then-success scenario: the first attempt
is not rate limited and fails with HTTP 500; every later attempt succeeds. -/
def behRetryOnce : Nat → AttemptBehavior := fun a =>
  if a = 0 then
    ⟨false, .error (.networkError "HTTP error: 500 Internal Server Error")⟩
  else
    ⟨false, .ok ⟨"Test Feed", none, none, []⟩⟩

/-- An attempt oracle whose first attempt is rate limited. -/
def behRateLimitedFirst : Nat → AttemptBehavior := fun _ =>
  ⟨true, .error .tooManyRetries⟩

/-- An attempt oracle that always fails with HTTP 500. -/
def behAlwaysFail : Nat → AttemptBehavior := fun _ =>
  ⟨false, .error (.networkError "HTTP error: 500 Internal Server Error")⟩

/-- A one-entry parsed feed (the RSS sample of the end-to-end scenarios). -/
def pfSample : ParsedFeed :=
  { title := "Test Feed"
    description := none
    url := none
    entries :=
      [{ title := some "Test Article"
         description := some "Summary"
         link := some "https://example.com/article1"
         published := some "2024-01-01T00:00:00Z"
         content := none }] }

/-- A datetime oracle accepting only the sample publish date. -/
def rfcSample : String → Option Nat := fun s =>
  if s = "2024-01-01T00:00:00Z" then some 1704067200 else none

/-- The row `save_parsed_feed_to_database` inserts for `pfSample` at tick 7
into an empty store for feed 1. -/
def rowSample : FeedEntryRow :=
  { feed_id := 1
    title := "Test Article"
    description := some "Summary"
    link := "https://example.com/article1"
    content := none
    published_at := some 1704067200
    created_at := 7
    updated_at := 7
    is_read := false
    is_starred := false }

/-- A low-priority fixture task. -/
def tLow : FeedFetchTask := ⟨"https://a.example/feed", .low, 0⟩

/-- A critical-priority fixture task. -/
def tCritical : FeedFetchTask := ⟨"https://b.example/feed", .critical, 0⟩

/-- A normal-priority fixture task. -/
def tNormal : FeedFetchTask := ⟨"https://c.example/feed", .normal, 0⟩

/-!
## Theorems
-/

/- ### Rate limiter lemmas -/

theorem RateLimiter.min_delay_record (rl : RateLimiter) (domain : String)
    (t : Nat) : (rl.record domain t).min_delay = rl.min_delay := rfl

theorem RateLimiter.lookup_record_self (rl : RateLimiter) (domain : String)
    (t : Nat) : (rl.record domain t).lookup domain = some t := by
  simp [RateLimiter.record, RateLimiter.lookup, List.find?]

/-- Claim C10: whenever `wait_if_needed` returns the `RateLimited` error, the
limiter state is unchanged and no sleep occurred (the call returns at its call
time); conversely, the last-request map is only updated on the Ok paths. -/
theorem C10_rate_limited_leaves_limiter_unchanged (rl : RateLimiter)
    (domain : String) (now : Nat) :
    ((wait_if_needed rl domain now).result =
        .error FeedFetchError.rateLimited →
      (wait_if_needed rl domain now).state = rl ∧
      (wait_if_needed rl domain now).returnTime = now) ∧
    ((wait_if_needed rl domain now).state ≠ rl →
      (wait_if_needed rl domain now).result = .ok ()) := by
  unfold wait_if_needed
  rcases h : rl.lookup domain with - | last
  · simp
  · simp only
    split_ifs with h1 h2 <;> simp

/-- Witness for C10 at a concrete rate-limited call: `min_delay = 10` s,
previous request recorded at tick 0, second call at tick 0. -/
theorem C10_witness :
    (wait_if_needed ⟨[("example.com", 0)], 10000⟩ "example.com" 0).state =
        ⟨[("example.com", 0)], 10000⟩ ∧
    (wait_if_needed ⟨[("example.com", 0)], 10000⟩ "example.com" 0).returnTime =
        0 :=
  (C10_rate_limited_leaves_limiter_unchanged ⟨[("example.com", 0)], 10000⟩
    "example.com" 0).1 rfl

/-- Claim C5: `wait_if_needed` returns Ok immediately and records the call
time when no timestamp exists or the delay has elapsed; otherwise with
`wait = min_delay - elapsed` it returns `RateLimited` without sleeping exactly
when `wait > 5` s, and else sleeps `wait` and records the wake-up time; hence
two calls for one host closer than `min_delay` return only once `min_delay`
has elapsed from the first, unless the residual wait exceeds 5 s. -/
theorem C5_wait_if_needed_spec :
    (∀ (rl : RateLimiter) (domain : String) (now : Nat),
      rl.lookup domain = none →
      wait_if_needed rl domain now = ⟨.ok (), rl.record domain now, now⟩) ∧
    (∀ (rl : RateLimiter) (domain : String) (now last : Nat),
      rl.lookup domain = some last → rl.min_delay ≤ now - last →
      wait_if_needed rl domain now = ⟨.ok (), rl.record domain now, now⟩) ∧
    (∀ (rl : RateLimiter) (domain : String) (now last : Nat),
      rl.lookup domain = some last → now - last < rl.min_delay →
      5000 < rl.min_delay - (now - last) →
      wait_if_needed rl domain now =
        ⟨.error FeedFetchError.rateLimited, rl, now⟩) ∧
    (∀ (rl : RateLimiter) (domain : String) (now last : Nat),
      rl.lookup domain = some last → now - last < rl.min_delay →
      rl.min_delay - (now - last) ≤ 5000 →
      wait_if_needed rl domain now =
        ⟨.ok (), rl.record domain (now + (rl.min_delay - (now - last))),
          now + (rl.min_delay - (now - last))⟩) ∧
    (∀ (rl : RateLimiter) (domain : String) (t0 t1 : Nat),
      rl.lookup domain = none → t0 ≤ t1 → t1 - t0 < rl.min_delay →
      (5000 < rl.min_delay - (t1 - t0) →
        wait_if_needed (wait_if_needed rl domain t0).state domain t1 =
          ⟨.error FeedFetchError.rateLimited,
            (wait_if_needed rl domain t0).state, t1⟩) ∧
      (rl.min_delay - (t1 - t0) ≤ 5000 →
        (wait_if_needed (wait_if_needed rl domain t0).state domain t1).result =
            .ok () ∧
        (wait_if_needed
            (wait_if_needed rl domain t0).state domain t1).returnTime =
          t0 + rl.min_delay)) := by
  have hnone : ∀ (rl : RateLimiter) (domain : String) (now : Nat),
      rl.lookup domain = none →
      wait_if_needed rl domain now = ⟨.ok (), rl.record domain now, now⟩ := by
    intro rl domain now h
    unfold wait_if_needed
    rw [h]
  have hfast : ∀ (rl : RateLimiter) (domain : String) (now last : Nat),
      rl.lookup domain = some last → rl.min_delay ≤ now - last →
      wait_if_needed rl domain now = ⟨.ok (), rl.record domain now, now⟩ := by
    intro rl domain now last h hd
    unfold wait_if_needed
    rw [h]
    simp only
    rw [if_neg (by omega)]
  have hlimited : ∀ (rl : RateLimiter) (domain : String) (now last : Nat),
      rl.lookup domain = some last → now - last < rl.min_delay →
      5000 < rl.min_delay - (now - last) →
      wait_if_needed rl domain now =
        ⟨.error FeedFetchError.rateLimited, rl, now⟩ := by
    intro rl domain now last h hd hw
    unfold wait_if_needed
    rw [h]
    simp only
    rw [if_pos hd, if_pos hw]
  have hsleep : ∀ (rl : RateLimiter) (domain : String) (now last : Nat),
      rl.lookup domain = some last → now - last < rl.min_delay →
      rl.min_delay - (now - last) ≤ 5000 →
      wait_if_needed rl domain now =
        ⟨.ok (), rl.record domain (now + (rl.min_delay - (now - last))),
          now + (rl.min_delay - (now - last))⟩ := by
    intro rl domain now last h hd hw
    unfold wait_if_needed
    rw [h]
    simp only
    rw [if_pos hd, if_neg (by omega)]
  refine ⟨hnone, hfast, hlimited, hsleep, ?_⟩
  intro rl domain t0 t1 h h01 hclose
  have hst : (wait_if_needed rl domain t0).state = rl.record domain t0 := by
    rw [hnone rl domain t0 h]
  have hlk : (wait_if_needed rl domain t0).state.lookup domain = some t0 := by
    rw [hst]; exact RateLimiter.lookup_record_self rl domain t0
  have hmd : (wait_if_needed rl domain t0).state.min_delay = rl.min_delay := by
    rw [hst]; rfl
  constructor
  · intro hw
    have := hlimited ((wait_if_needed rl domain t0).state) domain t1 t0 hlk
      (by omega) (by omega)
    rw [this]
  · intro hw
    have := hsleep ((wait_if_needed rl domain t0).state) domain t1 t0 hlk
      (by omega) (by omega)
    rw [this]
    refine ⟨rfl, ?_⟩
    simp only [hmd]
    omega

/-- Witness for C5: a fresh host recorded at tick 0 with `min_delay = 100` ms;
the second call at tick 30 returns Ok at tick 100. -/
theorem C5_witness :
    (wait_if_needed
        (wait_if_needed ⟨[], 100⟩ "example.com" 0).state "example.com"
        30).result = .ok () ∧
    (wait_if_needed
        (wait_if_needed ⟨[], 100⟩ "example.com" 0).state "example.com"
        30).returnTime = 0 + 100 :=
  (C5_wait_if_needed_spec.2.2.2.2 ⟨[], 100⟩ "example.com" 0 30 rfl
    (by omega) (by decide)).2 (by decide)


/- ### Priority heap lemmas -/

theorem heapPopMax_eq_none {h : List FeedFetchTask}
    (hp : heapPopMax h = none) : h = [] := by
  cases h with
  | nil => rfl
  | cons t ts =>
      exfalso
      rcases hr : heapPopMax ts with - | ⟨m, rest⟩
      · simp [heapPopMax, hr] at hp
      · simp only [heapPopMax, hr] at hp
        by_cases hlt : t.priority.toNat < m.priority.toNat
        · rw [if_pos hlt] at hp; exact Option.noConfusion hp
        · rw [if_neg hlt] at hp; exact Option.noConfusion hp

/-- `heapPopMax` returns an element maximal in priority among the heap
contents. -/
theorem heapPopMax_is_max {h : List FeedFetchTask} {m : FeedFetchTask}
    {rest : List FeedFetchTask} (hp : heapPopMax h = some (m, rest)) :
    ∀ x ∈ h, x.priority.toNat ≤ m.priority.toNat := by
  induction h generalizing m rest with
  | nil => simp [heapPopMax] at hp
  | cons t ts ih =>
      rcases hr : heapPopMax ts with - | ⟨m', rest'⟩
      · have hts : ts = [] := heapPopMax_eq_none hr
        subst hts
        simp only [heapPopMax, Option.some.injEq, Prod.mk.injEq] at hp
        obtain ⟨hm, -⟩ := hp
        subst hm
        intro x hx
        simp only [List.mem_singleton] at hx
        subst hx
        exact le_refl _
      · simp only [heapPopMax, hr] at hp
        by_cases hlt : t.priority.toNat < m'.priority.toNat
        · rw [if_pos hlt] at hp
          simp only [Option.some.injEq, Prod.mk.injEq] at hp
          obtain ⟨hm, -⟩ := hp
          subst hm
          intro x hx
          rcases List.mem_cons.mp hx with hxt | hxts
          · subst hxt; exact le_of_lt hlt
          · exact ih hr x hxts
        · rw [if_neg hlt] at hp
          simp only [Option.some.injEq, Prod.mk.injEq] at hp
          obtain ⟨hm, -⟩ := hp
          subst hm
          intro x hx
          rcases List.mem_cons.mp hx with hxt | hxts
          · subst hxt; exact le_refl _
          · exact le_trans (ih hr x hxts) (Nat.le_of_not_lt hlt)

/-- Claim C7: at a pop decision, for two tasks both resident in the heap, the
strictly lower-priority one is never the task popped — the popped task is
maximal — so the higher-priority one is dequeued first; the comparison is the
source `Ord`, which looks at priority only. -/
theorem C7_pop_respects_priority (h : List FeedFetchTask)
    (m a b : FeedFetchTask) (rest : List FeedFetchTask)
    (hpop : heapPopMax h = some (m, rest)) (ha : a ∈ h) (hb : b ∈ h)
    (hlt : b.priority.toNat < a.priority.toNat) :
    m ≠ b ∧ b.priority.toNat < m.priority.toNat ∧
      FeedFetchTask.cmp b m = Ordering.lt := by
  have hmax := heapPopMax_is_max hpop
  have h2 : b.priority.toNat < m.priority.toNat :=
    lt_of_lt_of_le hlt (hmax a ha)
  refine ⟨?_, h2, ?_⟩
  · rintro rfl
    exact absurd h2 (lt_irrefl _)
  · simpa [FeedFetchTask.cmp, Nat.compare_eq_lt] using h2

/-- Witness for C7: heap {Low A, Critical B, Normal C}; the pop is Critical B,
not Low A. -/
theorem C7_witness :
    tCritical ≠ tLow ∧
      tLow.priority.toNat < tCritical.priority.toNat ∧
      FeedFetchTask.cmp tLow tCritical = Ordering.lt :=
  C7_pop_respects_priority [tLow, tCritical, tNormal] tCritical tCritical tLow
    [tLow, tNormal] rfl (by simp) (by simp) (by decide)

/- ### Coordinator: start, pending summary, counterexamples -/

/-- Claim C8 (amended): `start_refresh_operation` resets the progress struct,
clearing any pending summary without moving it; the persistent slot keeps its
previous content, which is what a subsequent `get_last_refresh_summary`
returns. -/
theorem C8_start_clears_pending_summary (st : FetcherRefreshState)
    (n now : Nat) :
    (start_refresh_operation st n now).refresh_progress.last_summary = none ∧
    (start_refresh_operation st n now).last_refresh_summary =
      st.last_refresh_summary ∧
    (get_last_refresh_summary (start_refresh_operation st n now)).1 =
      st.last_refresh_summary :=
  ⟨rfl, rfl, rfl⟩

/-- Counterexample to claim C8 as stated: after a one-feed refresh completes
via the internal path, its summary is pending in the progress state; a new
`start_refresh_operation` loses it, and `get_last_refresh_summary` then
returns `none`, not the pending summary. -/
theorem C8_counterexample :
    (runCoordOps FetcherRefreshState.initial
        [.start 1 0, .completeInternal fsSuccess none 5]).refresh_progress.last_summary ≠
      none ∧
    (get_last_refresh_summary (runCoordOps FetcherRefreshState.initial
        [.start 1 0, .completeInternal fsSuccess none 5,
          .start 1 9])).1 = none := by
  decide

/-- Counterexample to claim C1 as stated: for `N = 0`,
`start_refresh_operation 0` followed by exactly zero completions produces no
`RefreshSummary` at all (both slots empty, zero emissions), not exactly one. -/
theorem C1_counterexample :
    (runCoordOps FetcherRefreshState.initial
        [CoordOp.start 0 0]).refresh_progress.last_summary = none ∧
    (runCoordOps FetcherRefreshState.initial
        [CoordOp.start 0 0]).last_refresh_summary = none ∧
    countEmits
      (start_refresh_operation FetcherRefreshState.initial 0 0).refresh_progress
      [] = 0 := by
  decide

/-- Counterexample to claim C4 as stated: a completion delivered after the
refresh already finished (as `abort_refresh`'s documentation warns can happen
with in-flight fetches) drives `completed_feeds` past `total_feeds`, breaking
the predicate in a reachable state. -/
theorem C4_counterexample :
    ¬ progressInv (runCoordOps FetcherRefreshState.initial
        [.start 1 0, .completeInternal fsSuccess none 1,
          .completeInternal fsSuccess none 2]).refresh_progress := by
  decide

/- ### Coordinator completion lemmas -/

theorem cfi_fields (p : RefreshProgressState) (fs : FeedRefreshStatus)
    (err : Option RefreshError) (now : Nat) :
    (complete_feed_refresh_internal p fs err now).completed_feeds =
        p.completed_feeds + 1 ∧
    (complete_feed_refresh_internal p fs err now).total_feeds = p.total_feeds ∧
    (complete_feed_refresh_internal p fs err now).failed_feeds =
      p.failed_feeds + (if err.isSome then 1 else 0) ∧
    (complete_feed_refresh_internal p fs err now).start_time = p.start_time ∧
    (complete_feed_refresh_internal p fs err now).is_active =
      (if p.total_feeds ≤ p.completed_feeds + 1 then false else p.is_active) := by
  cases err <;>
    simp only [complete_feed_refresh_internal, bumpProgress, Option.isSome] <;>
    split_ifs <;>
    (try cases p.start_time) <;> simp_all

theorem cfr_fields (st : FetcherRefreshState) (fs : FeedRefreshStatus)
    (err : Option RefreshError) (now : Nat) :
    ((complete_feed_refresh st fs err now).refresh_progress).completed_feeds =
        st.refresh_progress.completed_feeds + 1 ∧
    ((complete_feed_refresh st fs err now).refresh_progress).total_feeds =
        st.refresh_progress.total_feeds ∧
    ((complete_feed_refresh st fs err now).refresh_progress).failed_feeds =
      st.refresh_progress.failed_feeds + (if err.isSome then 1 else 0) ∧
    ((complete_feed_refresh st fs err now).refresh_progress).start_time =
        st.refresh_progress.start_time ∧
    ((complete_feed_refresh st fs err now).refresh_progress).is_active =
      (if st.refresh_progress.total_feeds ≤
            st.refresh_progress.completed_feeds + 1 then
          false
        else st.refresh_progress.is_active) := by
  cases err <;>
    simp only [complete_feed_refresh, bumpProgress, Option.isSome] <;>
    split_ifs <;>
    (try cases st.refresh_progress.start_time) <;> simp_all

/-- Claim C4 (amended): the predicate `completed ≤ total ∧ failed ≤ completed
∧ (is_active → completed < total)` holds in every state reachable from the
initial state through coordinator operations, provided every
`start_refresh_operation` is for at least one feed and every completion is
delivered while the refresh is active. -/
theorem C4_progress_invariant (ops : List CoordOp)
    (hv : validOpsFrom FetcherRefreshState.initial ops = true) :
    progressInv (runCoordOps FetcherRefreshState.initial ops).refresh_progress := by
  suffices main : ∀ (ops : List CoordOp) (st : FetcherRefreshState),
      progressInv st.refresh_progress → validOpsFrom st ops = true →
      progressInv (runCoordOps st ops).refresh_progress by
    exact main ops FetcherRefreshState.initial (by decide) hv
  intro ops
  induction ops with
  | nil => intro st h _; exact h
  | cons op rest ih =>
      intro st hinv hv
      simp only [validOpsFrom, Bool.and_eq_true] at hv
      obtain ⟨hop, hrest⟩ := hv
      refine ih (applyCoordOp st op) ?_ hrest
      obtain ⟨hct, hfc, hactive⟩ := hinv
      cases op with
      | start n now =>
          simp only [decide_eq_true_eq] at hop
          exact ⟨Nat.zero_le _, le_refl _, fun _ => hop⟩
      | completeInternal fs err now =>
          obtain ⟨h1, h2, h3, -, h5⟩ := cfi_fields st.refresh_progress fs err now
          have hlt := hactive hop
          simp only [applyCoordOp]
          refine ⟨?_, ?_, ?_⟩
          · rw [h1, h2]; omega
          · rw [h1, h3]; split_ifs <;> omega
          · intro hact
            rw [h5] at hact
            rw [h1, h2]
            by_cases hc : st.refresh_progress.total_feeds ≤
                st.refresh_progress.completed_feeds + 1
            · rw [if_pos hc] at hact
              exact absurd hact (by simp)
            · omega
      | complete fs err now =>
          obtain ⟨h1, h2, h3, -, h5⟩ := cfr_fields st fs err now
          have hlt := hactive hop
          simp only [applyCoordOp]
          refine ⟨?_, ?_, ?_⟩
          · rw [h1, h2]; omega
          · rw [h1, h3]; split_ifs <;> omega
          · intro hact
            rw [h5] at hact
            rw [h1, h2]
            by_cases hc : st.refresh_progress.total_feeds ≤
                st.refresh_progress.completed_feeds + 1
            · rw [if_pos hc] at hact
              exact absurd hact (by simp)
            · omega
      | abort =>
          exact ⟨hct, hfc, fun hact => absurd hact (by simp [applyCoordOp, abort_refresh])⟩

/-- Witness for C4: a valid sequence — start a two-feed refresh, deliver one
completion while active, abort. -/
theorem C4_witness :
    progressInv (runCoordOps FetcherRefreshState.initial
        [.start 2 0, .completeInternal fsSuccess none 1,
          .abort]).refresh_progress :=
  C4_progress_invariant
    [.start 2 0, .completeInternal fsSuccess none 1, .abort] (by decide)

theorem cfi_emit (p : RefreshProgressState) (fs : FeedRefreshStatus)
    (err : Option RefreshError) (now : Nat)
    (ht : p.total_feeds ≤ p.completed_feeds + 1) (t0 : Nat)
    (hst : p.start_time = some t0) :
    ∃ s : RefreshSummary,
      (complete_feed_refresh_internal p fs err now).last_summary = some s ∧
      s.successful_count =
        (p.completed_feeds + 1) -
          (p.failed_feeds + (if err.isSome then 1 else 0)) ∧
      s.failed_count = p.failed_feeds + (if err.isSome then 1 else 0) := by
  cases err <;>
    simp_all [complete_feed_refresh_internal, bumpProgress, buildRefreshSummary]

theorem runCompletions_emits_once (events : List CompletionEvent) :
    ∀ p : RefreshProgressState, p.start_time.isSome = true →
      p.completed_feeds + events.length = p.total_feeds →
      p.failed_feeds ≤ p.completed_feeds →
      events ≠ [] →
      countEmits p events = 1 ∧
      ∃ s, (runCompletions p events).last_summary = some s ∧
        s.successful_count + s.failed_count = p.total_feeds ∧
        s.successful_count =
          (runCompletions p events).completed_feeds -
            (runCompletions p events).failed_feeds ∧
        s.failed_count = (runCompletions p events).failed_feeds := by
  induction events with
  | nil => intro p _ _ _ hne; exact absurd rfl hne
  | cons ev rest ih =>
      obtain ⟨fs, err, now⟩ := ev
      intro p hst hlen hf _
      obtain ⟨t0, ht0⟩ := Option.isSome_iff_exists.mp hst
      have hd : (if err.isSome then 1 else 0) ≤ 1 := by split_ifs <;> omega
      obtain ⟨h1, h2, h3, h4, -⟩ := cfi_fields p fs err now
      rcases eq_or_ne rest [] with hend | hend
      · subst hend
        simp only [List.length_cons, List.length_nil] at hlen
        have ht : p.total_feeds ≤ p.completed_feeds + 1 := by omega
        have hemit : completionEmits p = true := by
          unfold completionEmits
          rw [decide_eq_true ht, hst]
          rfl
        obtain ⟨s, hs, hsucc, hfail⟩ := cfi_emit p fs err now ht t0 ht0
        have hrun : runCompletions p [(fs, err, now)] =
            complete_feed_refresh_internal p fs err now := rfl
        refine ⟨by simp [countEmits, hemit], s, ?_, ?_, ?_, ?_⟩
        · rw [hrun]; exact hs
        · rw [hsucc, hfail]; omega
        · rw [hrun, h1, h3, hsucc]
        · rw [hrun, h3, hfail]
      · have hrl : 1 ≤ rest.length := by
          cases rest with
          | nil => exact absurd rfl hend
          | cons a l => simp
        simp only [List.length_cons] at hlen
        have hlt : p.completed_feeds + 1 < p.total_feeds := by omega
        have hnoemit : completionEmits p = false := by
          unfold completionEmits
          rw [decide_eq_false (by omega)]
          rfl
        have ihq := ih (complete_feed_refresh_internal p fs err now)
          (by rw [h4]; exact hst)
          (by rw [h1, h2]; omega)
          (by rw [h1, h3]; omega)
          hend
        have hrun : runCompletions p ((fs, err, now) :: rest) =
            runCompletions (complete_feed_refresh_internal p fs err now)
              rest := rfl
        refine ⟨?_, ?_⟩
        · simp only [countEmits, hnoemit, if_neg Bool.false_ne_true]
          rw [Nat.zero_add]
          exact ihq.1
        · obtain ⟨s, hs, hsum, hsc, hfc⟩ := ihq.2
          rw [h2] at hsum
          exact ⟨s, by rw [hrun]; exact hs, hsum, by rw [hrun]; exact hsc,
            by rw [hrun]; exact hfc⟩

/-- Claim C1 (amended to `N ≥ 1`): after `start_refresh_operation N` followed
by exactly `N` completion calls, the summary-emission branch runs exactly
once, and the emitted `RefreshSummary` satisfies
`successful_count + failed_count = N`, with `successful_count` computed as
`completed_feeds - failed_feeds` and `failed_count` as `failed_feeds`. -/
theorem C1_summary_after_N_completions (st : FetcherRefreshState)
    (N t0 : Nat) (hN : 1 ≤ N) (events : List CompletionEvent)
    (hlen : events.length = N) :
    countEmits (start_refresh_operation st N t0).refresh_progress events = 1 ∧
    ∃ s, (runCompletions (start_refresh_operation st N t0).refresh_progress
        events).last_summary = some s ∧
      s.successful_count + s.failed_count = N ∧
      s.successful_count =
        (runCompletions (start_refresh_operation st N t0).refresh_progress
            events).completed_feeds -
          (runCompletions (start_refresh_operation st N t0).refresh_progress
              events).failed_feeds ∧
      s.failed_count =
        (runCompletions (start_refresh_operation st N t0).refresh_progress
            events).failed_feeds := by
  have hne : events ≠ [] := by
    intro h
    rw [h] at hlen
    simp at hlen
    omega
  have := runCompletions_emits_once events
    (start_refresh_operation st N t0).refresh_progress rfl
    (by simpa [start_refresh_operation] using hlen) (le_refl 0) hne
  simpa [start_refresh_operation] using this

/-- Witness for C1 at `N = 1` with one successful completion. -/
theorem C1_witness :
    countEmits
      (start_refresh_operation FetcherRefreshState.initial 1 0).refresh_progress
      [(fsSuccess, none, 5)] = 1 :=
  (C1_summary_after_N_completions FetcherRefreshState.initial 1 0 (by decide)
    [(fsSuccess, none, 5)] rfl).1

/- ### Fetch-with-retry: C2 and C3 -/

/-- Claim C2: the `FeedFetchResult` always carries the task's initial
`retry_count` — `fetch_with_retry` receives a clone, so its updates to
`retry_count` are lost.  Evaluated on the retry-then-success scenario (one
failed attempt, then success): the fetch succeeds on the second attempt
(2 attempts, so 1 failed attempt before the returning one), yet the result
carries `retry_count = 0`, not 1. -/
theorem C2_result_retry_count_is_initial :
    (∀ (task : FeedFetchTask) (beh : Nat → AttemptBehavior)
        (config : FetcherConfig),
      (workerFetchResult task beh config).retry_count = task.retry_count) ∧
    (workerFetchResult ⟨"https://example.com/feed.xml", .normal, 0⟩
        behRetryOnce FetcherConfig.default).retry_count = 0 ∧
    (fetch_with_retry behRetryOnce FetcherConfig.default).attempts = 2 ∧
    (fetch_with_retry behRetryOnce FetcherConfig.default).result =
      Except.ok ⟨"Test Feed", none, none, []⟩ :=
  ⟨fun _ _ _ => rfl, rfl, rfl, rfl⟩

theorem fetchRetryLoop_attempts_le (beh : Nat → AttemptBehavior)
    (config : FetcherConfig) :
    ∀ (fuel attempt : Nat) (le : Option FeedFetchError),
      (fetchRetryLoop beh config attempt fuel le).attempts ≤ fuel := by
  intro fuel
  induction fuel with
  | zero => intro attempt le; simp [fetchRetryLoop]
  | succ f ihf =>
      intro attempt le
      simp only [fetchRetryLoop]
      split_ifs with hb ha
      · simp
      · cases hfe : (beh attempt).fetch with
        | ok feed => simp [hfe]
        | error e =>
            simp [hfe]
            exact ihf (attempt + 1) (some e)
      · cases hfe : (beh attempt).fetch with
        | ok feed => simp [hfe]
        | error e =>
            simp [hfe]
            exact ihf (attempt + 1) (some e)

theorem range_map_cons (f : Nat → Nat) (a : Nat) (L : List Nat)
    (hL : L = (List.range L.length).map (fun k => f (a + 1 + k))) :
    f a :: L = (List.range (f a :: L).length).map (fun k => f (a + k)) := by
  rw [List.length_cons, List.range_succ_eq_map, List.map_cons, List.map_map]
  congr 1
  conv_lhs => rw [hL]
  refine List.map_congr_left (fun k _ => ?_)
  simp only [Function.comp_apply]
  congr 1
  omega

theorem fetchRetryLoop_sleeps_shape (beh : Nat → AttemptBehavior)
    (config : FetcherConfig) :
    ∀ (fuel attempt : Nat) (le : Option FeedFetchError),
      attempt + fuel ≤ config.max_retries + 1 →
      (fetchRetryLoop beh config attempt fuel le).sleeps =
        (List.range
            (fetchRetryLoop beh config attempt fuel le).sleeps.length).map
          (fun k => calculate_exponential_backoff (attempt + k) config) := by
  intro fuel
  induction fuel with
  | zero => intro attempt le h; simp [fetchRetryLoop]
  | succ f ihf =>
      intro attempt le h
      simp only [fetchRetryLoop]
      split_ifs with hb ha
      · simp
      · cases hfe : (beh attempt).fetch with
        | ok feed => simp [hfe]
        | error e =>
            simp only [hfe]
            simp only [List.singleton_append]
            exact range_map_cons
              (fun k => calculate_exponential_backoff k config) attempt
              ((fetchRetryLoop beh config (attempt + 1) f (some e)).sleeps)
              (ihf (attempt + 1) (some e) (by omega))
      · cases hfe : (beh attempt).fetch with
        | ok feed => simp [hfe]
        | error e =>
            simp only [hfe]
            have hf0 : f = 0 := by omega
            subst hf0
            simp [fetchRetryLoop]

theorem fetchRetryLoop_step_rl (beh : Nat → AttemptBehavior)
    (config : FetcherConfig) (attempt f : Nat) (le : Option FeedFetchError)
    (hb : (beh attempt).rateLimited = true) :
    fetchRetryLoop beh config attempt (f + 1) le =
      ⟨.error FeedFetchError.rateLimited, [], 1⟩ := by
  simp only [fetchRetryLoop]
  rw [if_pos hb]

theorem fetchRetryLoop_step_fail (beh : Nat → AttemptBehavior)
    (config : FetcherConfig) (attempt f : Nat) (le : Option FeedFetchError)
    (e : FeedFetchError) (hb : (beh attempt).rateLimited = false)
    (hfe : (beh attempt).fetch = .error e) :
    fetchRetryLoop beh config attempt (f + 1) le =
      ⟨(fetchRetryLoop beh config (attempt + 1) f (some e)).result,
        (if attempt < config.max_retries then
            [calculate_exponential_backoff attempt config]
          else []) ++
          (fetchRetryLoop beh config (attempt + 1) f (some e)).sleeps,
        (fetchRetryLoop beh config (attempt + 1) f (some e)).attempts + 1⟩ := by
  simp only [fetchRetryLoop]
  rw [if_neg (by simp [hb])]
  simp only [hfe]

theorem fetchRetryLoop_rateLimited (beh : Nat → AttemptBehavior)
    (config : FetcherConfig) :
    ∀ (a fuel attempt : Nat) (le : Option FeedFetchError),
      a < fuel → attempt + fuel ≤ config.max_retries + 1 →
      (∀ j, j < a → (beh (attempt + j)).rateLimited = false ∧
          ∃ e, (beh (attempt + j)).fetch = .error e) →
      (beh (attempt + a)).rateLimited = true →
      (fetchRetryLoop beh config attempt fuel le).result =
          .error FeedFetchError.rateLimited ∧
      (fetchRetryLoop beh config attempt fuel le).attempts = a + 1 ∧
      (fetchRetryLoop beh config attempt fuel le).sleeps.length = a := by
  intro a
  induction a with
  | zero =>
      intro fuel attempt le hfu _ _ hrl
      rcases fuel with - | f
      · omega
      · rw [Nat.add_zero] at hrl
        rw [fetchRetryLoop_step_rl beh config attempt f le hrl]
        exact ⟨rfl, rfl, rfl⟩
  | succ a iha =>
      intro fuel attempt le hfu hbnd hjs hrl
      rcases fuel with - | f
      · omega
      · have h0 := hjs 0 (Nat.succ_pos a)
        rw [Nat.add_zero] at h0
        obtain ⟨hrl0, e0, he0⟩ := h0
        rw [fetchRetryLoop_step_fail beh config attempt f le e0 hrl0 he0]
        have ha : attempt < config.max_retries := by omega
        have rec := iha f (attempt + 1) (some e0) (by omega) (by omega)
          (fun j hj => by
            have hjj := hjs (j + 1) (by omega)
            rwa [show attempt + (j + 1) = attempt + 1 + j by omega] at hjj)
          (by
            have := hrl
            rwa [show attempt + (a + 1) = attempt + 1 + a by omega] at this)
        refine ⟨rec.1, ?_, ?_⟩
        · show (fetchRetryLoop beh config (attempt + 1) f
              (some e0)).attempts + 1 = a + 1 + 1
          rw [rec.2.1]
        · show ((if attempt < config.max_retries then
              [calculate_exponential_backoff attempt config] else []) ++
              (fetchRetryLoop beh config (attempt + 1) f
                (some e0)).sleeps).length = a + 1
          rw [if_pos ha, List.singleton_append, List.length_cons, rec.2.2]

theorem fetchRetryLoop_exhausted (beh : Nat → AttemptBehavior)
    (config : FetcherConfig) (e : Nat → FeedFetchError) :
    ∀ (fuel attempt : Nat) (le : Option FeedFetchError),
      attempt + fuel = config.max_retries + 1 → 1 ≤ fuel →
      (∀ j, attempt ≤ j → j ≤ config.max_retries →
        (beh j).rateLimited = false ∧ (beh j).fetch = .error (e j)) →
      (fetchRetryLoop beh config attempt fuel le).result =
        .error (e config.max_retries) := by
  intro fuel
  induction fuel with
  | zero => intro attempt le h h1 _; omega
  | succ f ihf =>
      intro attempt le h _ hjs
      obtain ⟨hb0, he0⟩ := hjs attempt (le_refl _) (by omega)
      rw [fetchRetryLoop_step_fail beh config attempt f le (e attempt) hb0 he0]
      rcases Nat.eq_zero_or_pos f with hf0 | hfpos
      · subst hf0
        have hA : attempt = config.max_retries := by omega
        show (fetchRetryLoop beh config (attempt + 1) 0
            (some (e attempt))).result = .error (e config.max_retries)
        rw [hA]
        rfl
      · exact ihf (attempt + 1) (some (e attempt)) (by omega) (by omega)
          (fun j hj1 hj2 => hjs j (by omega) hj2)

/-- Claim C3: `fetch_with_retry` makes at most `max_retries + 1` attempts; a
`RateLimited` answer from the rate limiter on the first rate-limited attempt
(after only failed attempts) is returned immediately, with no further attempt
and no backoff sleep for it; the backoff sleeps are exactly
`min(base_retry_delay * 2^a, max_retry_delay)` for the consecutive failed
attempts `a = 0, 1, ...`; after exhausting all attempts the most recent error
is returned; and when the range is exhausted with no recorded error the
defensive `TooManyRetries` is returned. -/
theorem C3_fetch_with_retry_spec (beh : Nat → AttemptBehavior)
    (config : FetcherConfig) :
    (fetch_with_retry beh config).attempts ≤ config.max_retries + 1 ∧
    (fetch_with_retry beh config).sleeps =
      (List.range (fetch_with_retry beh config).sleeps.length).map
        (fun a => min (config.base_retry_delay * 2 ^ a)
          config.max_retry_delay) ∧
    (∀ a, a ≤ config.max_retries →
      (∀ j, j < a → (beh j).rateLimited = false ∧
          ∃ e, (beh j).fetch = .error e) →
      (beh a).rateLimited = true →
      (fetch_with_retry beh config).result =
          .error FeedFetchError.rateLimited ∧
      (fetch_with_retry beh config).attempts = a + 1 ∧
      (fetch_with_retry beh config).sleeps.length = a) ∧
    (∀ e : Nat → FeedFetchError,
      (∀ j, j ≤ config.max_retries →
        (beh j).rateLimited = false ∧ (beh j).fetch = .error (e j)) →
      (fetch_with_retry beh config).result =
        .error (e config.max_retries)) ∧
    (∀ (attempt : Nat) (le : Option FeedFetchError),
      (fetchRetryLoop beh config attempt 0 le).result =
        .error (le.getD FeedFetchError.tooManyRetries)) := by
  refine ⟨fetchRetryLoop_attempts_le beh config _ 0 none, ?_, ?_, ?_,
    fun _ _ => rfl⟩
  · have := fetchRetryLoop_sleeps_shape beh config (config.max_retries + 1) 0
      none (by omega)
    simpa [calculate_exponential_backoff] using this
  · intro a hamax hjs hrl
    have := fetchRetryLoop_rateLimited beh config a (config.max_retries + 1) 0
      none (by omega) (by omega)
      (fun j hj => by simpa using hjs j hj)
      (by simpa using hrl)
    exact this
  · intro e hjs
    exact fetchRetryLoop_exhausted beh config e (config.max_retries + 1) 0
      none (by omega) (by omega) (fun j _ hj2 => hjs j hj2)

/-- Witness for C3: a first-attempt rate-limited run returns `RateLimited`
after one attempt and no sleep; an always-500 run returns the HTTP error. -/
theorem C3_witness :
    ((fetch_with_retry behRateLimitedFirst FetcherConfig.default).result =
        .error FeedFetchError.rateLimited ∧
      (fetch_with_retry behRateLimitedFirst FetcherConfig.default).attempts =
        1 ∧
      (fetch_with_retry behRateLimitedFirst
          FetcherConfig.default).sleeps.length = 0) ∧
    (fetch_with_retry behAlwaysFail FetcherConfig.default).result =
      .error (.networkError "HTTP error: 500 Internal Server Error") :=
  ⟨(C3_fetch_with_retry_spec behRateLimitedFirst FetcherConfig.default).2.2.1 0
      (by decide) (fun j hj => absurd hj (Nat.not_lt_zero j)) rfl,
    (C3_fetch_with_retry_spec behAlwaysFail FetcherConfig.default).2.2.2.1
      (fun _ => .networkError "HTTP error: 500 Internal Server Error")
      (fun _ _ => ⟨rfl, rfl⟩)⟩

/- ### Dispatcher shutdown: C9 -/

theorem runDispatcher_exited (evs : List RecvEvent) :
    ∀ st : DispatcherState, st.exited = true →
      runDispatcher st evs = (st, []) := by
  induction evs with
  | nil => intro st _; rfl
  | cons ev rest ih =>
      intro st hx
      have hstep : dispatchStep st ev = (st, none) := by
        unfold dispatchStep
        rw [if_pos hx]
      simp only [runDispatcher, hstep]
      rw [ih st hx]
      simp

theorem runDispatcher_append (l1 l2 : List RecvEvent) :
    ∀ st, runDispatcher st (l1 ++ l2) =
      ((runDispatcher (runDispatcher st l1).1 l2).1,
        (runDispatcher st l1).2 ++
          (runDispatcher (runDispatcher st l1).1 l2).2) := by
  induction l1 with
  | nil => intro st; simp [runDispatcher]
  | cons ev rest ih =>
      intro st
      rcases hstep : dispatchStep st ev with ⟨st', d⟩
      simp only [List.cons_append, runDispatcher, hstep]
      simp only [List.append_eq]
      rw [ih st']
      simp [List.append_assoc]

theorem dispatchStep_not_running (st : DispatcherState) (ev : RecvEvent)
    (hr : ev.running = false) :
    (dispatchStep st ev).2 = none ∧ (dispatchStep st ev).1.exited = true := by
  unfold dispatchStep
  by_cases hx : st.exited = true
  · rw [if_pos hx]
    exact ⟨rfl, hx⟩
  · rw [if_neg hx, if_pos hr]
    exact ⟨rfl, rfl⟩

/-- Claim C9: once the dispatcher loop receives a task while `is_running` is
false, it discards that task and breaks out of the loop permanently — nothing
received at or after that point is ever dispatched, even if later events
carry `is_running = true` again — and with the receiver dropped,
`queue_feed` fails with the channel-closed error. -/
theorem C9_stop_is_permanent (evs1 : List RecvEvent) (ev : RecvEvent)
    (evs2 : List RecvEvent) (hr : ev.running = false) (url : String)
    (priority : FetchPriority) :
    (runDispatcher DispatcherState.initial (evs1 ++ ev :: evs2)).2 =
      (runDispatcher DispatcherState.initial evs1).2 ∧
    (runDispatcher DispatcherState.initial (evs1 ++ ev :: evs2)).1.exited =
      true ∧
    queue_feed
      (runDispatcher DispatcherState.initial (evs1 ++ ev :: evs2)).1.exited
      url priority = .error "Failed to queue feed task" := by
  have happ := runDispatcher_append evs1 (ev :: evs2) DispatcherState.initial
  obtain ⟨hd, hx⟩ := dispatchStep_not_running
    (runDispatcher DispatcherState.initial evs1).1 ev hr
  have hrun2 : runDispatcher (runDispatcher DispatcherState.initial evs1).1
      (ev :: evs2) =
      ((runDispatcher
          (dispatchStep (runDispatcher DispatcherState.initial evs1).1 ev).1
          evs2).1,
        (dispatchStep (runDispatcher DispatcherState.initial evs1).1 ev).2.toList
          ++ (runDispatcher
            (dispatchStep (runDispatcher DispatcherState.initial evs1).1
              ev).1 evs2).2) := by
    rcases hstep : dispatchStep (runDispatcher DispatcherState.initial evs1).1
      ev with ⟨st2, d⟩
    simp only [runDispatcher, hstep]
  have hrest := runDispatcher_exited evs2
    (dispatchStep (runDispatcher DispatcherState.initial evs1).1 ev).1 hx
  rw [happ, hrun2, hrest, hd]
  refine ⟨by simp, hx, ?_⟩
  simp only [queue_feed, hx]
  rfl

/-- Witness for C9: one task dispatched while running, then a receive with
`is_running = false`, then a further task that is never dispatched. -/
theorem C9_witness :
    (runDispatcher DispatcherState.initial
        [⟨tLow, true, []⟩, ⟨tCritical, false, []⟩, ⟨tNormal, true, []⟩]).2 =
      (runDispatcher DispatcherState.initial [⟨tLow, true, []⟩]).2 ∧
    (runDispatcher DispatcherState.initial
        [⟨tLow, true, []⟩, ⟨tCritical, false, []⟩,
          ⟨tNormal, true, []⟩]).1.exited = true ∧
    queue_feed
      (runDispatcher DispatcherState.initial
        [⟨tLow, true, []⟩, ⟨tCritical, false, []⟩,
          ⟨tNormal, true, []⟩]).1.exited
      "https://d.example/feed" FetchPriority.normal =
      .error "Failed to queue feed task" :=
  C9_stop_is_permanent [⟨tLow, true, []⟩] ⟨tCritical, false, []⟩
    [⟨tNormal, true, []⟩] rfl "https://d.example/feed" FetchPriority.normal

/- ### Persistence: C6 -/

theorem entryExists_append (db1 db2 : List FeedEntryRow) (feedId : Int)
    (l : String) :
    entryExists (db1 ++ db2) feedId l =
      (entryExists db1 feedId l || entryExists db2 feedId l) := by
  simp [entryExists, List.any_append]

theorem saveEntriesLoop_ok_spec (rfc : String → Option Nat) (now : Nat)
    (insOk : Nat → Bool) (feedId : Int) :
    ∀ (entries : List ParsedEntry) (db : List FeedEntryRow) (idx acc n : Nat)
      (db' : List FeedEntryRow),
      saveEntriesLoop rfc now insOk feedId entries db idx acc =
        .ok (n, db') →
      ∃ newRows : List FeedEntryRow,
        db' = db ++ newRows ∧
        n = acc + newRows.length ∧
        (∀ r ∈ newRows,
          r.feed_id = feedId ∧ r.is_read = false ∧ r.is_starred = false ∧
          r.created_at = now ∧ r.updated_at = now ∧
          ∃ e ∈ entries, e.link = some r.link ∧ r.link ≠ "" ∧
            r.title = e.title.getD "Untitled" ∧
            r.description = e.description ∧ r.content = e.content ∧
            r.published_at = e.published.bind rfc) ∧
        List.Sublist (newRows.map FeedEntryRow.link)
          (entries.filterMap entryGoodLink) ∧
        (∀ r ∈ newRows, entryExists db feedId r.link = false) ∧
        (newRows.map FeedEntryRow.link).Nodup ∧
        (∀ k, idx ≤ k → k < idx + newRows.length → insOk k = true) := by
  intro entries
  induction entries with
  | nil =>
      intro db idx acc n db' h
      simp only [saveEntriesLoop, Except.ok.injEq, Prod.mk.injEq] at h
      obtain ⟨hn, hdb⟩ := h
      exact ⟨[], by simp [← hdb], by simpa using hn.symm, by simp,
        by simp [entryGoodLink], by simp, by simp,
        by intro k h1 h2; simp at h2; omega⟩
  | cons entry rest ih =>
      intro db idx acc n db' h
      simp only [saveEntriesLoop] at h
      cases hl : entry.link with
      | none =>
          simp only [hl] at h
          obtain ⟨newRows, hdb, hn, hprops, hsub, hfresh, hnodup, hins⟩ :=
            ih db idx acc n db' h
          refine ⟨newRows, hdb, hn, ?_, ?_, hfresh, hnodup, hins⟩
          · intro r hr
            obtain ⟨h1, h2, h3, h4, h5, e, he, hrest⟩ := hprops r hr
            exact ⟨h1, h2, h3, h4, h5, e, List.mem_cons_of_mem _ he, hrest⟩
          · have hg : entryGoodLink entry = none := by
              simp [entryGoodLink, hl]
            simpa [List.filterMap_cons, hg] using hsub
      | some l =>
          simp only [hl] at h
          split_ifs at h with hempty hdup hins0
          · -- empty link: skipped
            obtain ⟨newRows, hdb, hn, hprops, hsub, hfresh, hnodup, hins⟩ :=
              ih db idx acc n db' h
            refine ⟨newRows, hdb, hn, ?_, ?_, hfresh, hnodup, hins⟩
            · intro r hr
              obtain ⟨h1, h2, h3, h4, h5, e, he, hrest⟩ := hprops r hr
              exact ⟨h1, h2, h3, h4, h5, e, List.mem_cons_of_mem _ he, hrest⟩
            · have hg : entryGoodLink entry = none := by
                simp [entryGoodLink, hl, hempty]
              simpa [List.filterMap_cons, hg] using hsub
          · -- duplicate (feed_id, link): skipped
            obtain ⟨newRows, hdb, hn, hprops, hsub, hfresh, hnodup, hins⟩ :=
              ih db idx acc n db' h
            have hg : entryGoodLink entry = some l := by
              simp [entryGoodLink, hl, hempty]
            refine ⟨newRows, hdb, hn, ?_, ?_, hfresh, hnodup, hins⟩
            · intro r hr
              obtain ⟨h1, h2, h3, h4, h5, e, he, hrest⟩ := hprops r hr
              exact ⟨h1, h2, h3, h4, h5, e, List.mem_cons_of_mem _ he, hrest⟩
            · rw [List.filterMap_cons_some hg]
              exact (hsub).cons l
          · -- inserted
            obtain ⟨newRows, hdb, hn, hprops, hsub, hfresh, hnodup, hins⟩ :=
              ih (db ++ [{ feed_id := feedId
                           title := entry.title.getD "Untitled"
                           description := entry.description
                           link := l
                           content := entry.content
                           published_at := entry.published.bind rfc
                           created_at := now
                           updated_at := now
                           is_read := false
                           is_starred := false }]) (idx + 1) (acc + 1) n db' h
            have hg : entryGoodLink entry = some l := by
              simp [entryGoodLink, hl, hempty]
            have hdupF : entryExists db feedId l = false :=
              Bool.not_eq_true _ ▸ eq_false_of_ne_true hdup
            refine ⟨{ feed_id := feedId
                      title := entry.title.getD "Untitled"
                      description := entry.description
                      link := l
                      content := entry.content
                      published_at := entry.published.bind rfc
                      created_at := now
                      updated_at := now
                      is_read := false
                      is_starred := false } :: newRows, ?_, ?_, ?_, ?_, ?_,
              ?_, ?_⟩
            · rw [hdb]
              simp
            · simp only [List.length_cons]
              omega
            · intro r hr
              rcases List.mem_cons.mp hr with hr0 | hrs
              · subst hr0
                exact ⟨rfl, rfl, rfl, rfl, rfl, entry,
                  List.mem_cons_self _ _, by simpa using hl, hempty, rfl, rfl,
                  rfl, rfl⟩
              · obtain ⟨h1, h2, h3, h4, h5, e, he, hrest⟩ := hprops r hrs
                exact ⟨h1, h2, h3, h4, h5, e, List.mem_cons_of_mem _ he,
                  hrest⟩
            · rw [List.filterMap_cons_some hg, List.map_cons]
              exact List.Sublist.cons₂ l hsub
            · intro r hr
              rcases List.mem_cons.mp hr with hr0 | hrs
              · subst hr0
                exact hdupF
              · have := hfresh r hrs
                rw [entryExists_append] at this
                exact (Bool.or_eq_false_iff.mp this).1
            · rw [List.map_cons]
              refine List.nodup_cons.mpr ⟨?_, hnodup⟩
              intro hmem
              obtain ⟨r, hrs, hrl⟩ := List.mem_map.mp hmem
              have := hfresh r hrs
              rw [entryExists_append] at this
              have h2 := (Bool.or_eq_false_iff.mp this).2
              simp [entryExists, hrl] at h2
            · intro k hk1 hk2
              rcases Nat.eq_or_lt_of_le hk1 with hk0 | hkgt
              · subst hk0
                exact hins0
              · refine hins k (by omega) ?_
                simp only [List.length_cons] at hk2
                omega

theorem saveEntriesLoop_error_spec (rfc : String → Option Nat) (now : Nat)
    (insOk : Nat → Bool) (feedId : Int) :
    ∀ (entries : List ParsedEntry) (db : List FeedEntryRow) (idx acc : Nat)
      (msg : String),
      saveEntriesLoop rfc now insOk feedId entries db idx acc = .error msg →
      msg = "Failed to insert feed entry" ∧ ∃ k, idx ≤ k ∧ insOk k = false := by
  intro entries
  induction entries with
  | nil =>
      intro db idx acc msg h
      simp [saveEntriesLoop] at h
  | cons entry rest ih =>
      intro db idx acc msg h
      simp only [saveEntriesLoop] at h
      cases hl : entry.link with
      | none =>
          simp only [hl] at h
          exact ih db idx acc msg h
      | some l =>
          simp only [hl] at h
          split_ifs at h with hempty hdup hins0
          · exact ih db idx acc msg h
          · exact ih db idx acc msg h
          · obtain ⟨hmsg, k, hk1, hk2⟩ := ih _ (idx + 1) (acc + 1) msg h
            exact ⟨hmsg, k, by omega, hk2⟩
          · simp only [Except.error.injEq] at h
            exact ⟨h.symm, idx, le_refl _,
              eq_false_of_ne_true hins0⟩

/-- Claim C6: `save_parsed_feed_to_database` walks the entries in document
order; entries with a missing or empty link are never persisted; entries whose
`(feed_id, link)` already exists are skipped; inserted rows default the title
to "Untitled", parse `published` via RFC3339 (`none` on failure),
and set `is_read = is_starred = false`; any insert error aborts the whole
save with an error; on success the returned count is exactly the number of
rows inserted. -/
theorem C6_save_parsed_feed_spec (rfc : String → Option Nat) (now : Nat)
    (insOk : Nat → Bool) (feedId : Int) (db : List FeedEntryRow)
    (parsed_feed : ParsedFeed) :
    (∀ (n : Nat) (db' : List FeedEntryRow),
      save_parsed_feed_to_database rfc now insOk feedId db parsed_feed =
        .ok (n, db') →
      ∃ newRows : List FeedEntryRow,
        db' = db ++ newRows ∧ n = newRows.length ∧
        (∀ r ∈ newRows,
          r.feed_id = feedId ∧ r.is_read = false ∧ r.is_starred = false ∧
          r.created_at = now ∧ r.updated_at = now ∧
          ∃ e ∈ parsed_feed.entries, e.link = some r.link ∧ r.link ≠ "" ∧
            r.title = e.title.getD "Untitled" ∧
            r.description = e.description ∧ r.content = e.content ∧
            r.published_at = e.published.bind rfc) ∧
        List.Sublist (newRows.map FeedEntryRow.link)
          (parsed_feed.entries.filterMap entryGoodLink) ∧
        (∀ r ∈ newRows, entryExists db feedId r.link = false) ∧
        (newRows.map FeedEntryRow.link).Nodup ∧
        (∀ k, k < n → insOk k = true)) ∧
    (∀ msg, save_parsed_feed_to_database rfc now insOk feedId db
        parsed_feed = .error msg →
      msg = "Failed to insert feed entry" ∧ ∃ k, insOk k = false) := by
  constructor
  · intro n db' h
    obtain ⟨newRows, hdb, hn, hprops, hsub, hfresh, hnodup, hins⟩ :=
      saveEntriesLoop_ok_spec rfc now insOk feedId parsed_feed.entries db 0 0
        n db' h
    exact ⟨newRows, hdb, by omega, hprops, hsub, hfresh, hnodup,
      fun k hk => hins k (Nat.zero_le k) (by omega)⟩
  · intro msg h
    obtain ⟨hmsg, k, -, hk⟩ :=
      saveEntriesLoop_error_spec rfc now insOk feedId parsed_feed.entries db
        0 0 msg h
    exact ⟨hmsg, k, hk⟩

/-- Witness for C6 on the one-entry sample feed saved into an empty store. -/
theorem C6_witness :
    rowSample.is_read = false ∧ rowSample.is_starred = false ∧
      (fun _ => true : Nat → Bool) 0 = true := by
  obtain ⟨newRows, hdb, hn, hprops, -, -, -, hins⟩ :=
    (C6_save_parsed_feed_spec rfcSample 7 (fun _ => true) 1 [] pfSample).1 1
      [rowSample] rfl
  have hrows : newRows = [rowSample] := by simpa using hdb.symm
  subst hrows
  obtain ⟨-, h2, h3, -, -, -⟩ := hprops rowSample (List.mem_singleton_self _)
  exact ⟨h2, h3, hins 0 (by omega)⟩
